import Mathlib

/-!
Verification of the LocalLibrary catalog data model
(`catalog/models.py`, `catalog/urls.py`).

Shallow embedding conventions:
* Calendar dates (`datetime.date`) are modelled as integers (day ordinals);
  `date.today()` becomes an explicit `today : Int` parameter.
* Nullable columns / foreign keys become `Option`.
* Django `FileField`/`ImageField` payloads are modelled by their byte size.
* A fallible save path (a validator raising `ValidationError`) becomes
  `Except String Unit`, the error carrying the message string.
* Primary keys are modelled as `Nat`; the persistent store is a `DB`
  structure holding association lists keyed by primary key.
-/

namespace LocalLibrary

/-- `catalog/models.py` `Genre`: id plus a `name` CharField. -/
structure Genre where
  name : String
deriving DecidableEq, Repr

/-- `catalog/models.py` `Language`: id plus a `name` CharField. -/
structure Language where
  name : String
deriving DecidableEq, Repr

/-- `catalog/models.py` `Author`: names plus optional birth/death dates
(`date_of_birth`, `date_of_death` are `null=True, blank=True`). -/
structure Author where
  first_name : String
  last_name : String
  date_of_birth : Option Int
  date_of_death : Option Int
deriving DecidableEq, Repr

/-- `catalog/models.py` `Book`: title, nullable FK to `Author`
(`on_delete=SET_NULL, null=True`), summary, isbn, many-to-many genres
(modelled as the list of related `Genre` rows, in relation order),
nullable FK to `Language` (`on_delete=SET_NULL, null=True`). -/
structure Book where
  title : String
  author : Option Nat
  summary : String
  isbn : String
  genre : List Genre
  language : Option Nat
deriving DecidableEq, Repr

/-- `catalog/models.py` `BookInstance`: UUID pk (modelled as `Nat`),
nullable FK to `Book` (`on_delete=RESTRICT, null=True`), imprint,
nullable `due_back` date, nullable FK to `User`, and a status CharField
with `default='d'` — the structure-field default mirrors the model
default so an instance built without an explicit status gets `"d"`. -/
structure BookInstance where
  id : Nat
  book : Option Nat
  imprint : String
  due_back : Option Int
  borrower : Option Nat
  status : String := "d"
deriving DecidableEq, Repr

/-- The localized (Russian) oversize message used by all three
`validate_image` copies in `catalog/models.py`. -/
def oversizeMsg : String :=
  "Файл слишком большой. Размер файла не должен превышать 2MB"

namespace Cover

/-- `Cover.validate_image`: `size_limit = 2*1024*1024`; raises
`ValidationError` with the localized message when `value.size > size_limit`,
otherwise returns normally. -/
def validate_image (size : Nat) : Except String Unit :=
  let size_limit := 2 * 1024 * 1024
  if size > size_limit then .error oversizeMsg else .ok ()

end Cover

namespace Book

/-- `Book.validate_image`: identical body to `Cover.validate_image`. -/
def validate_image (size : Nat) : Except String Unit :=
  let size_limit := 2 * 1024 * 1024
  if size > size_limit then .error oversizeMsg else .ok ()

/-- Python `', '.join(lst)`: elements joined with the separator placed
between consecutive elements. -/
def pyJoin (sep : String) : List String → String
  | [] => ""
  | [x] => x
  | x :: xs => x ++ sep ++ pyJoin sep xs

/-- `Book.display_genre`:
`', '.join([genre.name for genre in self.genre.all()[:3]])`. -/
def display_genre (b : LocalLibrary.Book) : String :=
  pyJoin ", " ((b.genre.take 3).map Genre.name)

end Book

namespace BookInstance

/-- `BookInstance.validate_image`: identical body to `Cover.validate_image`. -/
def validate_image (size : Nat) : Except String Unit :=
  let size_limit := 2 * 1024 * 1024
  if size > size_limit then .error oversizeMsg else .ok ()

/-- `BookInstance.is_overdue`:
`if self.due_back and date.today() > self.due_back: return True; return False`.
A `datetime.date` object is always truthy in Python, so the guard is
"due_back is not None and today > due_back". -/
def is_overdue (today : Int) (inst : LocalLibrary.BookInstance) : Bool :=
  match inst.due_back with
  | none => false
  | some d => decide (today > d)

/-- `BookInstance.LOAN_STATUS`: the four (key, label) choices. -/
def LOAN_STATUS : List (String × String) :=
  [("d", "Maintenance"), ("o", "On loan"), ("a", "Available"), ("r", "Reserved")]

/-- Choice validation for the `status` CharField: the stored value must be
one of the declared `LOAN_STATUS` keys. -/
def statusValid (s : String) : Bool :=
  (LOAN_STATUS.map Prod.fst).contains s

end BookInstance

/-- C1: each of the three identical `validate_image` validators rejects a
payload strictly larger than 2MB with the localized message and accepts
any payload of at most 2MB. -/
theorem validate_image_spec (size : Nat) :
    (size > 2 * 1024 * 1024 →
      Cover.validate_image size = .error oversizeMsg ∧
      Book.validate_image size = .error oversizeMsg ∧
      BookInstance.validate_image size = .error oversizeMsg ∧
      oversizeMsg ≠ "") ∧
    (size ≤ 2 * 1024 * 1024 →
      Cover.validate_image size = .ok () ∧
      Book.validate_image size = .ok () ∧
      BookInstance.validate_image size = .ok ()) := by
  constructor
  · intro h
    refine ⟨?_, ?_, ?_, by decide⟩ <;>
      simp [Cover.validate_image, Book.validate_image,
        BookInstance.validate_image, h]
  · intro h
    refine ⟨?_, ?_, ?_⟩ <;>
      simp [Cover.validate_image, Book.validate_image,
        BookInstance.validate_image, Nat.not_lt.mpr h]

/-- Witness for C1: the validators at 2MB + 1 byte and at 100 bytes. -/
theorem validate_image_spec_witness :
    (Cover.validate_image (2 * 1024 * 1024 + 1) = .error oversizeMsg ∧
      Book.validate_image (2 * 1024 * 1024 + 1) = .error oversizeMsg ∧
      BookInstance.validate_image (2 * 1024 * 1024 + 1) = .error oversizeMsg ∧
      oversizeMsg ≠ "") ∧
    (Cover.validate_image 100 = .ok () ∧
      Book.validate_image 100 = .ok () ∧
      BookInstance.validate_image 100 = .ok ()) :=
  ⟨(validate_image_spec (2 * 1024 * 1024 + 1)).1 (by decide),
   (validate_image_spec 100).2 (by decide)⟩

/-- C2: `is_overdue` is true iff `due_back` is set and strictly before
today; in particular it is false when `due_back` is null and when
`due_back` equals today. -/
theorem is_overdue_spec (today : Int) (inst : BookInstance) :
    (BookInstance.is_overdue today inst = true ↔
      ∃ d, inst.due_back = some d ∧ d < today) ∧
    (inst.due_back = none → BookInstance.is_overdue today inst = false) ∧
    (inst.due_back = some today → BookInstance.is_overdue today inst = false) := by
  refine ⟨?_, ?_, ?_⟩
  · cases h : inst.due_back with
    | none => simp [BookInstance.is_overdue, h]
    | some d => simp [BookInstance.is_overdue, h]
  · intro h; simp [BookInstance.is_overdue, h]
  · intro h; simp [BookInstance.is_overdue, h]

/-- Witness for C2: an instance due yesterday is overdue; one due today or
with no due date is not. -/
theorem is_overdue_spec_witness :
    (BookInstance.is_overdue 10
      { id := 1, book := some 1, imprint := "i", due_back := some 9,
        borrower := none } = true) ∧
    (BookInstance.is_overdue 10
      { id := 2, book := some 1, imprint := "i", due_back := none,
        borrower := none } = false) ∧
    (BookInstance.is_overdue 10
      { id := 3, book := some 1, imprint := "i", due_back := some 10,
        borrower := none } = false) :=
  ⟨(is_overdue_spec 10 _).1.mpr ⟨9, rfl, by decide⟩,
   (is_overdue_spec 10 _).2.1 rfl,
   (is_overdue_spec 10 _).2.2 rfl⟩

/-- C6: `display_genre` joins the names of at most the first three genres
with `", "`: it ignores genres past the third, returns `""` for no genres,
`"SciFi"` for the single genre named `"SciFi"`, and the two- and
three-element joins are the comma-separated name lists. -/
theorem display_genre_spec :
    (∀ b : Book, Book.display_genre b =
      Book.display_genre { b with genre := b.genre.take 3 }) ∧
    (∀ b : Book, b.genre = [] → Book.display_genre b = "") ∧
    (∀ b : Book, b.genre = [⟨"SciFi"⟩] → Book.display_genre b = "SciFi") ∧
    (∀ b : Book, ∀ g1 g2 g3 : Genre, b.genre = [g1, g2, g3] →
      Book.display_genre b = g1.name ++ ", " ++ g2.name ++ ", " ++ g3.name) ∧
    (∀ b : Book, ∀ g1 g2 g3 : Genre, ∀ rest : List Genre,
      b.genre = g1 :: g2 :: g3 :: rest →
      Book.display_genre b = g1.name ++ ", " ++ g2.name ++ ", " ++ g3.name) := by
  refine ⟨?_, ?_, ?_, ?_, ?_⟩
  · intro b
    simp [Book.display_genre, List.take_take]
  · intro b h; simp [Book.display_genre, h, Book.pyJoin]
  · intro b h; simp [Book.display_genre, h, Book.pyJoin]
  · intro b g1 g2 g3 h
    simp [Book.display_genre, h, Book.pyJoin, String.append_assoc]
  · intro b g1 g2 g3 rest h
    simp [Book.display_genre, h, Book.pyJoin, String.append_assoc]

/-- Witness for C6: a book whose only genre is `"SciFi"` displays `"SciFi"`;
with four genres only the first three are shown. -/
theorem display_genre_spec_witness :
    (Book.display_genre
      { title := "Dune", author := some 1, summary := "s",
        isbn := "9780441013593", genre := [⟨"SciFi"⟩], language := some 1 }
      = "SciFi") ∧
    (Book.display_genre
      { title := "t", author := none, summary := "s", isbn := "i",
        genre := [⟨"a"⟩, ⟨"b"⟩, ⟨"c"⟩, ⟨"z"⟩], language := none }
      = "a" ++ ", " ++ "b" ++ ", " ++ "c") :=
  ⟨display_genre_spec.2.2.1 _ rfl,
   display_genre_spec.2.2.2.2 _ ⟨"a"⟩ ⟨"b"⟩ ⟨"c"⟩ [⟨"z"⟩] rfl⟩

/-- C9: a status value passes choice validation iff it is one of the four
`LOAN_STATUS` keys (maintenance `"d"`, on_loan `"o"`, available `"a"`,
reserved `"r"`); the key `"d"` is labelled `"Maintenance"`; and a
`BookInstance` built without an explicit status has status `"d"`. -/
theorem status_spec (s : String) :
    (BookInstance.statusValid s =
      (s == "d" || s == "o" || s == "a" || s == "r")) ∧
    BookInstance.LOAN_STATUS.lookup "d" = some "Maintenance" ∧
    (∀ i bk im db br,
      ({ id := i, book := bk, imprint := im, due_back := db,
         borrower := br } : BookInstance).status = "d") := by
  refine ⟨?_, rfl, fun _ _ _ _ _ => rfl⟩
  simp [BookInstance.statusValid, BookInstance.LOAN_STATUS, List.contains,
    List.elem]
  cases h : s == "d" <;> cases h2 : s == "o" <;> cases h3 : s == "a" <;>
    cases h4 : s == "r" <;> simp_all

/-- The persistent store: association lists keyed by primary key, mirroring
the relational schema declared in `catalog/models.py`. -/
structure DB where
  authors : List (Nat × Author)
  languages : List (Nat × Language)
  books : List (Nat × Book)
  insts : List BookInstance
deriving Repr

/-- Creating a `Book`: the store rejects a row whose `isbn` duplicates an
existing row (`isbn` has `unique=True`) or whose `(title, author)` pair
duplicates an existing row (`Meta.unique_together = ('title', 'author')`);
otherwise the row is inserted. -/
def createBook (db : DB) (bid : Nat) (b : Book) : Except String DB :=
  if ∃ p ∈ db.books, p.2.isbn = b.isbn then
    .error "duplicate isbn"
  else if ∃ p ∈ db.books, p.2.title = b.title ∧ p.2.author = b.author then
    .error "duplicate title and author"
  else
    .ok { db with books := db.books ++ [(bid, b)] }

/-- Creating an `Author`: the store rejects a row duplicating an existing
row on `(first_name, last_name, date_of_birth)`
(`Meta.unique_together = ('first_name', 'last_name', 'date_of_birth')`);
otherwise the row is inserted. -/
def createAuthor (db : DB) (aid : Nat) (a : Author) : Except String DB :=
  if ∃ p ∈ db.authors, p.2.first_name = a.first_name ∧
      p.2.last_name = a.last_name ∧ p.2.date_of_birth = a.date_of_birth then
    .error "duplicate first_name, last_name and date_of_birth"
  else
    .ok { db with authors := db.authors ++ [(aid, a)] }

/-- Deleting an `Author`: `Book.author` is declared
`ForeignKey('Author', on_delete=models.SET_NULL, null=True)`, so the row is
removed and every `Book` referencing it gets `author = None`. -/
def deleteAuthor (db : DB) (aid : Nat) : DB :=
  { db with
    authors := db.authors.filter (fun p => decide (p.1 ≠ aid)),
    books := db.books.map (fun p =>
      if p.2.author = some aid then (p.1, { p.2 with author := none }) else p) }

/-- Deleting a `Language`: `Book.language` is declared
`ForeignKey('Language', on_delete=models.SET_NULL, null=True)`, so the row
is removed and every `Book` referencing it gets `language = None`. -/
def deleteLanguage (db : DB) (lid : Nat) : DB :=
  { db with
    languages := db.languages.filter (fun p => decide (p.1 ≠ lid)),
    books := db.books.map (fun p =>
      if p.2.language = some lid then (p.1, { p.2 with language := none })
      else p) }

/-- Deleting a `Book`: `BookInstance.book` is declared
`ForeignKey('Book', on_delete=models.RESTRICT, null=True)`, so the delete
is rejected while any `BookInstance` references the row, and otherwise
removes exactly that row. -/
def deleteBook (db : DB) (bid : Nat) : Except String DB :=
  if ∃ i ∈ db.insts, i.book = some bid then
    .error "deletion restricted by BookInstance references"
  else
    .ok { db with books := db.books.filter (fun p => decide (p.1 ≠ bid)) }

/-- `BookInstance.__str__`:
`'{0} ({1})'.format(self.id, self.book.title)`. When the `book` foreign key
is null the attribute access `self.book.title` dereferences `None` and the
computation fails, modelled as `none`; when the referenced row exists the
formatted string is returned. -/
def bookInstanceStr (db : DB) (inst : BookInstance) : Option String :=
  match inst.book with
  | none => none
  | some bid =>
    match db.books.find? (fun p => decide (p.1 = bid)) with
    | none => none
    | some p => some (toString inst.id ++ " (" ++ p.2.title ++ ")")

/-- C3: creating a `Book` duplicating an existing `isbn` fails; creating a
`Book` duplicating an existing `(title, author)` pair fails; creating an
`Author` duplicating an existing `(first_name, last_name, date_of_birth)`
triple fails; creations violating none of these constraints are accepted. -/
theorem uniqueness_spec (db : DB) (bid aid : Nat) (b : Book) (a : Author) :
    ((∃ p ∈ db.books, p.2.isbn = b.isbn) →
      createBook db bid b = .error "duplicate isbn") ∧
    ((∃ p ∈ db.books, p.2.title = b.title ∧ p.2.author = b.author) →
      ∃ e, createBook db bid b = .error e) ∧
    ((∃ p ∈ db.authors, p.2.first_name = a.first_name ∧
        p.2.last_name = a.last_name ∧
        p.2.date_of_birth = a.date_of_birth) →
      ∃ e, createAuthor db aid a = .error e) ∧
    ((¬ ∃ p ∈ db.books, p.2.isbn = b.isbn) →
      (¬ ∃ p ∈ db.books, p.2.title = b.title ∧ p.2.author = b.author) →
      createBook db bid b = .ok { db with books := db.books ++ [(bid, b)] }) ∧
    ((¬ ∃ p ∈ db.authors, p.2.first_name = a.first_name ∧
        p.2.last_name = a.last_name ∧
        p.2.date_of_birth = a.date_of_birth) →
      createAuthor db aid a =
        .ok { db with authors := db.authors ++ [(aid, a)] }) := by
  refine ⟨?_, ?_, ?_, ?_, ?_⟩
  · intro h
    unfold createBook
    rw [if_pos h]
  · intro h
    unfold createBook
    by_cases h1 : ∃ p ∈ db.books, p.2.isbn = b.isbn
    · rw [if_pos h1]; exact ⟨_, rfl⟩
    · rw [if_neg h1, if_pos h]; exact ⟨_, rfl⟩
  · intro h
    unfold createAuthor
    rw [if_pos h]
    exact ⟨_, rfl⟩
  · intro h1 h2
    unfold createBook
    rw [if_neg h1, if_neg h2]
  · intro h
    unfold createAuthor
    rw [if_neg h]

/-- C4: deleting an `Author` (resp. `Language`) keeps every `Book` that
referenced it, with all other fields unchanged and the reference set to
`none`; books not referencing it are untouched; the deleted row is gone. -/
theorem set_null_on_delete_spec (db : DB) (aid lid bid : Nat) (b : Book)
    (h : (bid, b) ∈ db.books) :
    (b.author = some aid →
      (bid, { b with author := none }) ∈ (deleteAuthor db aid).books) ∧
    (b.author ≠ some aid → (bid, b) ∈ (deleteAuthor db aid).books) ∧
    (∀ p ∈ (deleteAuthor db aid).authors, p.1 ≠ aid) ∧
    (b.language = some lid →
      (bid, { b with language := none }) ∈ (deleteLanguage db lid).books) ∧
    (b.language ≠ some lid → (bid, b) ∈ (deleteLanguage db lid).books) ∧
    (∀ p ∈ (deleteLanguage db lid).languages, p.1 ≠ lid) := by
  refine ⟨?_, ?_, ?_, ?_, ?_, ?_⟩
  · intro ha
    have h2 := List.mem_map_of_mem (fun p : Nat × Book =>
      if p.2.author = some aid then (p.1, { p.2 with author := none })
      else p) h
    simpa [deleteAuthor, ha] using h2
  · intro ha
    have h2 := List.mem_map_of_mem (fun p : Nat × Book =>
      if p.2.author = some aid then (p.1, { p.2 with author := none })
      else p) h
    simpa [deleteAuthor, ha] using h2
  · intro p hp
    have := (List.mem_filter.mp hp).2
    simpa using this
  · intro hl
    have h2 := List.mem_map_of_mem (fun p : Nat × Book =>
      if p.2.language = some lid then (p.1, { p.2 with language := none })
      else p) h
    simpa [deleteLanguage, hl] using h2
  · intro hl
    have h2 := List.mem_map_of_mem (fun p : Nat × Book =>
      if p.2.language = some lid then (p.1, { p.2 with language := none })
      else p) h
    simpa [deleteLanguage, hl] using h2
  · intro p hp
    have := (List.mem_filter.mp hp).2
    simpa using this

/-- C5: deleting a `Book` referenced by some `BookInstance` is rejected
(the operation returns an error and produces no new state); deleting an
unreferenced `Book` succeeds, removing exactly that row and leaving
authors, languages and instances unchanged. -/
theorem restrict_delete_spec (db : DB) (bid : Nat) :
    ((∃ i ∈ db.insts, i.book = some bid) →
      deleteBook db bid =
        .error "deletion restricted by BookInstance references") ∧
    ((¬ ∃ i ∈ db.insts, i.book = some bid) →
      ∃ db2, deleteBook db bid = .ok db2 ∧
        (∀ p ∈ db.books, p.1 ≠ bid → p ∈ db2.books) ∧
        (∀ p ∈ db2.books, p.1 ≠ bid ∧ p ∈ db.books) ∧
        db2.insts = db.insts ∧
        db2.authors = db.authors ∧
        db2.languages = db.languages) := by
  constructor
  · intro h
    unfold deleteBook
    rw [if_pos h]
  · intro h
    refine ⟨{ db with books := db.books.filter (fun p => decide (p.1 ≠ bid)) },
      ?_, ?_, ?_, rfl, rfl, rfl⟩
    · unfold deleteBook
      rw [if_neg h]
    · intro p hp hne
      exact List.mem_filter.mpr ⟨hp, by simpa using hne⟩
    · intro p hp
      exact ⟨by simpa using (List.mem_filter.mp hp).2, (List.mem_filter.mp hp).1⟩

/-- C10: the string representation of a `BookInstance` fails (dereferences a
missing book) exactly when the `book` foreign key is null; when the
referenced row is present it yields `"<id> (<title>)"`. -/
theorem book_instance_str_spec (db : DB) (inst : BookInstance) :
    (inst.book = none → bookInstanceStr db inst = none) ∧
    (∀ bid p, inst.book = some bid →
      db.books.find? (fun q => decide (q.1 = bid)) = some p →
      bookInstanceStr db inst =
        some (toString inst.id ++ " (" ++ p.2.title ++ ")")) := by
  constructor
  · intro h
    simp [bookInstanceStr, h]
  · intro bid p h hf
    simp [bookInstanceStr, h, hf]

/-- Sample row: the Dune book, referencing author 1 and language 1. -/
def book1 : Book :=
  { title := "Dune", author := some 1, summary := "s",
    isbn := "9780441013593", genre := [⟨"SciFi"⟩], language := some 1 }

/-- Sample row: a second book with fresh title and isbn. -/
def book2 : Book :=
  { title := "Emma", author := some 1, summary := "s",
    isbn := "9780141439587", genre := [], language := some 1 }

/-- Sample row: author 1 (Frank Herbert). -/
def author1 : Author :=
  { first_name := "Frank", last_name := "Herbert",
    date_of_birth := some 100, date_of_death := none }

/-- Sample row: an author with a fresh name triple. -/
def author2 : Author :=
  { first_name := "Jane", last_name := "Austen",
    date_of_birth := some 50, date_of_death := some 90 }

/-- Sample row: a book instance of book 10. -/
def inst1 : BookInstance :=
  { id := 5, book := some 10, imprint := "i", due_back := none,
    borrower := none }

/-- Sample store: author 1, language 1, book 10 and one instance of it. -/
def db1 : DB :=
  { authors := [(1, author1)], languages := [(1, ⟨"English"⟩)],
    books := [(10, book1)], insts := [inst1] }

/-- Sample store: `db1` plus an unreferenced book 20. -/
def db2 : DB := { db1 with books := db1.books ++ [(20, book2)] }

/-- Witness for C3: duplicating `db1`'s isbn, its (title, author) pair, or
its author name triple is rejected; fresh rows are accepted. -/
theorem uniqueness_spec_witness :
    (createBook db1 20 { book1 with title := "Other" } =
      .error "duplicate isbn") ∧
    (∃ e, createBook db1 20 { book1 with isbn := "0000000000000" } =
      .error e) ∧
    (∃ e, createAuthor db1 2 { author1 with date_of_death := some 200 } =
      .error e) ∧
    (createBook db1 20 book2 = .ok { db1 with books := db1.books ++ [(20, book2)] }) ∧
    (createAuthor db1 2 author2 =
      .ok { db1 with authors := db1.authors ++ [(2, author2)] }) :=
  ⟨(uniqueness_spec db1 20 2 { book1 with title := "Other" } author2).1
      ⟨(10, book1), by decide, rfl⟩,
   (uniqueness_spec db1 20 2 { book1 with isbn := "0000000000000" } author2).2.1
      ⟨(10, book1), by decide, rfl, rfl⟩,
   (uniqueness_spec db1 20 2 book2 { author1 with date_of_death := some 200 }).2.2.1
      ⟨(1, author1), by decide, rfl, rfl, rfl⟩,
   (uniqueness_spec db1 20 2 book2 author2).2.2.2.1 (by decide) (by decide),
   (uniqueness_spec db1 20 2 book2 author2).2.2.2.2 (by decide)⟩

/-- Witness for C4: deleting author 1 (resp. language 1) from `db1` keeps
book 10 with the reference nulled and the other fields unchanged. -/
theorem set_null_on_delete_spec_witness :
    ((10, { book1 with author := none }) ∈ (deleteAuthor db1 1).books) ∧
    ((10, { book1 with language := none }) ∈ (deleteLanguage db1 1).books) :=
  ⟨(set_null_on_delete_spec db1 1 1 10 book1 (by decide)).1 rfl,
   (set_null_on_delete_spec db1 1 1 10 book1 (by decide)).2.2.2.1 rfl⟩

/-- Witness for C5: book 10 of `db1` is referenced by `inst1` so its delete
is rejected; the unreferenced book 20 of `db2` can be deleted. -/
theorem restrict_delete_spec_witness :
    (deleteBook db1 10 =
      .error "deletion restricted by BookInstance references") ∧
    (∃ db3, deleteBook db2 20 = .ok db3 ∧ db3.insts = db2.insts) := by
  refine ⟨(restrict_delete_spec db1 10).1 ⟨inst1, by decide, rfl⟩, ?_⟩
  obtain ⟨db3, h1, _, _, h4, _, _⟩ := (restrict_delete_spec db2 20).2 (by decide)
  exact ⟨db3, h1, h4⟩

/-- Witness for C10: a bookless instance has no string representation;
`inst1` renders as `"5 (Dune)"`. -/
theorem book_instance_str_spec_witness :
    (bookInstanceStr db1 { inst1 with book := none } = none) ∧
    (bookInstanceStr db1 inst1 =
      some (toString (5 : Nat) ++ " (" ++ "Dune" ++ ")")) :=
  ⟨(book_instance_str_spec db1 { inst1 with book := none }).1 rfl,
   (book_instance_str_spec db1 inst1).2 10 (10, book1) rfl rfl⟩

/-- Ordering key from `BookInstance.Meta.ordering = ['due_back']`:
ascending on the nullable `due_back` column, with a null sorting before
every date (the underlying ASC null rule the spec refers to). -/
def dueBackLE (a b : Option Int) : Bool :=
  match a, b with
  | none, _ => true
  | some _, none => false
  | some x, some y => decide (x ≤ y)

/-- The default ordering of the `BookInstance` collection: the rows sorted
by the `due_back` key. -/
def orderInstances (l : List BookInstance) : List BookInstance :=
  l.mergeSort (fun a b => dueBackLE a.due_back b.due_back)

theorem dueBackLE_trans (a b c : Option Int) :
    dueBackLE a b = true → dueBackLE b c = true → dueBackLE a c = true := by
  cases a <;> cases b <;> cases c <;> simp [dueBackLE]
  omega

theorem dueBackLE_total (a b : Option Int) :
    (dueBackLE a b || dueBackLE b a) = true := by
  cases a <;> cases b <;> simp [dueBackLE]
  omega

/-- C7: the default collection ordering is a permutation of the rows that
is pairwise non-decreasing in the `due_back` key, where the key order puts
a null `due_back` before (≤) everything, never puts a date before a null,
and compares two dates by ≤. -/
theorem default_ordering_spec (l : List BookInstance) :
    List.Perm (orderInstances l) l ∧
    (orderInstances l).Pairwise
      (fun a b => dueBackLE a.due_back b.due_back = true) ∧
    (∀ b, dueBackLE none b = true) ∧
    (∀ x, dueBackLE (some x) none = false) ∧
    (∀ x y, dueBackLE (some x) (some y) = decide (x ≤ y)) := by
  refine ⟨List.mergeSort_perm l _, ?_, ?_, ?_, ?_⟩
  · exact List.sorted_mergeSort
      (fun a b c => dueBackLE_trans a.due_back b.due_back c.due_back)
      (fun a b => dueBackLE_total a.due_back b.due_back) l
  · intro b; cases b <;> rfl
  · intro x; rfl
  · intro x y; rfl

/-- The view handlers named by `catalog/urls.py` (`views.index`,
`BookListView`, `BookDetailView`, `AuthorListView`, `AuthorDetailView`,
`LoanedBooksByUserListView`). -/
inductive Handler where
  | index
  | bookList
  | bookDetail (pk : Nat)
  | authorList
  | authorDetail (pk : Nat)
  | myBorrowed
deriving DecidableEq, Repr

/-- Django matches URLconf patterns against the request path with its
leading slash removed. -/
def stripSlash : List Char → List Char
  | '/' :: rest => rest
  | p => p

/-- Numeric value of an ASCII digit. -/
def digitVal (c : Char) : Nat := c.toNat - 48

/-- Base-10 value of a digit string, as a captured `\d+` group is
converted to the integer view argument. -/
def digitsVal (cs : List Char) : Nat :=
  cs.foldl (fun a c => 10 * a + digitVal c) 0

/-- Match a `\d+` group spanning the rest of the path: at least one
character, all digits. -/
def parseDigits (cs : List Char) : Option Nat :=
  if cs ≠ [] ∧ cs.all Char.isDigit = true then some (digitsVal cs) else none

/-- Strip a literal pattern from the front of the path, returning the
remainder on success. -/
def dropPre : List Char → List Char → Option (List Char)
  | [], q => some q
  | _ :: _, [] => none
  | c :: p, d :: q => if c = d then dropPre p q else none

/-- An anchored literal pattern (`^lit$`). -/
def matchLit (pat : List Char) (h : Handler) (q : List Char) :
    Option Handler :=
  if q = pat then some h else none

/-- An anchored pattern `^lit(?P<pk>\d+)$`, feeding the captured group to
a handler parameterized by the pk. -/
def matchDetail (lit : List Char) (mk : Nat → Handler) (q : List Char) :
    Option Handler :=
  (dropPre lit q).bind (fun rest => (parseDigits rest).map mk)

/-- `catalog/urls.py` `urlpatterns`, in declaration order:
`path('', views.index)`, `url(r'^$', views.index)`,
`url(r'^books/$', ...)`, `url(r'^book/(?P<pk>\d+)$', ...)`,
`url(r'^author/$', ...)`, `url(r'^author/(?P<pk>\d+)$', ...)`,
`url(r'^mybooks/$', ...)`. -/
def urlpatterns : List (List Char → Option Handler) :=
  [matchLit [] .index,
   matchLit [] .index,
   matchLit "books/".toList .bookList,
   matchDetail "book/".toList .bookDetail,
   matchLit "author/".toList .authorList,
   matchDetail "author/".toList .authorDetail,
   matchLit "mybooks/".toList .myBorrowed]

/-- URL resolution: the first declared pattern matching the slash-stripped
path wins; no pattern matching means not-found (`none`). -/
def resolve (path : List Char) : Option Handler :=
  urlpatterns.findSome? (fun m => m (stripSlash path))

/-- ASCII digit character for a value below 10. -/
def digitChar (d : Nat) : Char := Char.ofNat (48 + d)

/-- Base-10 rendering of a natural number (Python `str(self.id)`). -/
def natDigits (n : Nat) : List Char :=
  if n < 10 then [digitChar n]
  else natDigits (n / 10) ++ [digitChar (n % 10)]
termination_by n
decreasing_by
  simp_wf
  omega

/-- `Book.get_absolute_url`:
`reverse('book-detail', args=[str(self.id)])` — Django's reverse of the
`^book/(?P<pk>\d+)$` pattern substitutes the rendered id after the
literal part, under the root script prefix `/`. -/
def get_absolute_url (id : Nat) : List Char :=
  '/' :: ("book/".toList ++ natDigits id)

theorem digitChar_isDigit (d : Nat) (h : d < 10) :
    (digitChar d).isDigit = true := by
  interval_cases d <;> decide

theorem digitVal_digitChar (d : Nat) (h : d < 10) :
    digitVal (digitChar d) = d := by
  interval_cases d <;> decide

theorem natDigits_ne_nil (n : Nat) : natDigits n ≠ [] := by
  unfold natDigits
  split <;> simp

theorem natDigits_all_digits (n : Nat) :
    (natDigits n).all Char.isDigit = true := by
  induction n using Nat.strong_induction_on with
  | _ n ih =>
    unfold natDigits
    split
    · next h => simp [digitChar_isDigit n h]
    · next h =>
      rw [List.all_append]
      have h10 : n / 10 < n := by omega
      simp [ih _ h10, digitChar_isDigit (n % 10) (by omega)]

theorem digitsVal_append_digit (xs : List Char) (c : Char) :
    digitsVal (xs ++ [c]) = 10 * digitsVal xs + digitVal c := by
  simp [digitsVal, List.foldl_append]

theorem digitsVal_natDigits (n : Nat) : digitsVal (natDigits n) = n := by
  induction n using Nat.strong_induction_on with
  | _ n ih =>
    unfold natDigits
    split
    · next h => simp [digitsVal, digitVal_digitChar n h]
    · next h =>
      rw [digitsVal_append_digit, ih (n / 10) (by omega),
        digitVal_digitChar (n % 10) (by omega)]
      omega

theorem parseDigits_natDigits (n : Nat) :
    parseDigits (natDigits n) = some n := by
  unfold parseDigits
  rw [if_pos ⟨natDigits_ne_nil n, natDigits_all_digits n⟩,
    digitsVal_natDigits]

theorem dropPre_append (p r : List Char) : dropPre p (p ++ r) = some r := by
  induction p with
  | nil => rfl
  | cons c p ih => simp [dropPre, ih]

theorem dropPre_eq_some (p q r : List Char) (h : dropPre p q = some r) :
    q = p ++ r := by
  induction p generalizing q with
  | nil => simpa [dropPre] using h
  | cons c p ih =>
    cases q with
    | nil => exact absurd h (by simp [dropPre])
    | cons d q =>
      by_cases hc : c = d
      · subst hc
        simp only [dropPre, if_pos rfl] at h
        simp [ih q h]
      · rw [dropPre, if_neg hc] at h
        exact absurd h (by simp)

theorem parseDigits_eq_some (cs : List Char) (n : Nat)
    (h : parseDigits cs = some n) :
    cs ≠ [] ∧ cs.all Char.isDigit = true ∧ n = digitsVal cs := by
  unfold parseDigits at h
  split at h
  · next hc =>
    injection h with h
    exact ⟨hc.1, hc.2, h.symm⟩
  · exact absurd h (by simp)

theorem matchLit_eq_some (pat : List Char) (hd : Handler) (q : List Char)
    (h' : Handler) (h : matchLit pat hd q = some h') :
    q = pat ∧ h' = hd := by
  unfold matchLit at h
  split at h
  · next hc =>
    injection h with h
    exact ⟨hc, h.symm⟩
  · exact absurd h (by simp)

theorem matchDetail_eq_some (lit : List Char) (mk : Nat → Handler)
    (q : List Char) (h' : Handler) (h : matchDetail lit mk q = some h') :
    ∃ ds, ds ≠ [] ∧ ds.all Char.isDigit = true ∧ q = lit ++ ds ∧
      h' = mk (digitsVal ds) := by
  unfold matchDetail at h
  cases hd : dropPre lit q with
  | none => rw [hd] at h; exact absurd h (by simp)
  | some rest =>
    rw [hd] at h
    simp only [Option.some_bind] at h
    cases hp : parseDigits rest with
    | none => rw [hp] at h; exact absurd h (by simp)
    | some n =>
      rw [hp, Option.map_some'] at h
      injection h with h
      obtain ⟨h1, h2, h3⟩ := parseDigits_eq_some rest n hp
      exact ⟨rest, h1, h2, dropPre_eq_some lit q rest hd, by rw [← h, h3]⟩

/-- C8: the routing table sends `/` and `''` to the index handler,
`/books/` to the book list, `/book/<digits>` to the book detail with the
decimal pk, `/author/` to the author list, `/author/<digits>` to the
author detail, `/mybooks/` to the borrowed-instances handler; the
canonical URL of a book is `/book/<id>`, which resolves back to its
detail handler; and nothing else resolves: every resolved path is of one
of the six listed shapes. -/
theorem routing_spec :
    (resolve "/".toList = some Handler.index) ∧
    (resolve "".toList = some Handler.index) ∧
    (resolve "/books/".toList = some Handler.bookList) ∧
    (∀ n : Nat, resolve ('/' :: ("book/".toList ++ natDigits n)) =
      some (Handler.bookDetail n)) ∧
    (resolve "/author/".toList = some Handler.authorList) ∧
    (∀ n : Nat, resolve ('/' :: ("author/".toList ++ natDigits n)) =
      some (Handler.authorDetail n)) ∧
    (resolve "/mybooks/".toList = some Handler.myBorrowed) ∧
    (∀ bid : Nat, get_absolute_url bid =
      '/' :: ("book/".toList ++ natDigits bid)) ∧
    (∀ bid : Nat, resolve (get_absolute_url bid) =
      some (Handler.bookDetail bid)) ∧
    (∀ p hd, resolve p = some hd →
      (stripSlash p = [] ∧ hd = Handler.index) ∨
      (stripSlash p = "books/".toList ∧ hd = Handler.bookList) ∨
      (∃ ds, ds ≠ [] ∧ ds.all Char.isDigit = true ∧
        stripSlash p = "book/".toList ++ ds ∧
        hd = Handler.bookDetail (digitsVal ds)) ∨
      (stripSlash p = "author/".toList ∧ hd = Handler.authorList) ∨
      (∃ ds, ds ≠ [] ∧ ds.all Char.isDigit = true ∧
        stripSlash p = "author/".toList ++ ds ∧
        hd = Handler.authorDetail (digitsVal ds)) ∨
      (stripSlash p = "mybooks/".toList ∧ hd = Handler.myBorrowed)) := by
  have hbookDetail : ∀ n : Nat,
      resolve ('/' :: ("book/".toList ++ natDigits n)) =
        some (Handler.bookDetail n) := by
    intro n
    have h0 : stripSlash ('/' :: ("book/".toList ++ natDigits n)) =
        'b' :: 'o' :: 'o' :: 'k' :: '/' :: natDigits n := rfl
    have h1 : matchLit [] Handler.index
        ('b' :: 'o' :: 'o' :: 'k' :: '/' :: natDigits n) = none := rfl
    have h2 : matchLit "books/".toList Handler.bookList
        ('b' :: 'o' :: 'o' :: 'k' :: '/' :: natDigits n) = none := by
      have hb : "books/".toList = ['b', 'o', 'o', 'k', 's', '/'] := rfl
      simp [matchLit, hb]
    have h3 : matchDetail "book/".toList Handler.bookDetail
        ('b' :: 'o' :: 'o' :: 'k' :: '/' :: natDigits n) =
        some (Handler.bookDetail n) := by
      have hb : ('b' :: 'o' :: 'o' :: 'k' :: '/' :: natDigits n) =
          "book/".toList ++ natDigits n := rfl
      rw [hb]
      unfold matchDetail
      rw [dropPre_append, Option.some_bind, parseDigits_natDigits,
        Option.map_some']
    simp only [resolve, urlpatterns, List.findSome?_cons, h0, h1, h2, h3]
  have hauthorDetail : ∀ n : Nat,
      resolve ('/' :: ("author/".toList ++ natDigits n)) =
        some (Handler.authorDetail n) := by
    intro n
    have h0 : stripSlash ('/' :: ("author/".toList ++ natDigits n)) =
        'a' :: 'u' :: 't' :: 'h' :: 'o' :: 'r' :: '/' :: natDigits n := rfl
    have h1 : matchLit [] Handler.index
        ('a' :: 'u' :: 't' :: 'h' :: 'o' :: 'r' :: '/' :: natDigits n)
        = none := rfl
    have h2 : matchLit "books/".toList Handler.bookList
        ('a' :: 'u' :: 't' :: 'h' :: 'o' :: 'r' :: '/' :: natDigits n)
        = none := by
      have hb : "books/".toList = ['b', 'o', 'o', 'k', 's', '/'] := rfl
      simp [matchLit, hb]
    have h3 : matchDetail "book/".toList Handler.bookDetail
        ('a' :: 'u' :: 't' :: 'h' :: 'o' :: 'r' :: '/' :: natDigits n)
        = none := rfl
    have h4 : matchLit "author/".toList Handler.authorList
        ('a' :: 'u' :: 't' :: 'h' :: 'o' :: 'r' :: '/' :: natDigits n)
        = none := by
      have hb : ('a' :: 'u' :: 't' :: 'h' :: 'o' :: 'r' :: '/' ::
          natDigits n) = "author/".toList ++ natDigits n := rfl
      rw [hb]
      unfold matchLit
      rw [if_neg]
      intro hcontra
      have hlen := congrArg List.length hcontra
      simp [List.length_append] at hlen
      exact natDigits_ne_nil n hlen
    have h5 : matchDetail "author/".toList Handler.authorDetail
        ('a' :: 'u' :: 't' :: 'h' :: 'o' :: 'r' :: '/' :: natDigits n) =
        some (Handler.authorDetail n) := by
      have hb : ('a' :: 'u' :: 't' :: 'h' :: 'o' :: 'r' :: '/' ::
          natDigits n) = "author/".toList ++ natDigits n := rfl
      rw [hb]
      unfold matchDetail
      rw [dropPre_append, Option.some_bind, parseDigits_natDigits,
        Option.map_some']
    simp only [resolve, urlpatterns, List.findSome?_cons, h0, h1, h2, h3,
      h4, h5]
  refine ⟨rfl, rfl, rfl, hbookDetail, rfl, hauthorDetail, rfl,
    fun bid => rfl, fun bid => hbookDetail bid, ?_⟩
  intro p hd hres
  simp only [resolve, urlpatterns, List.findSome?_cons,
    List.findSome?_nil] at hres
  cases hm1 : matchLit [] Handler.index (stripSlash p) with
  | some hh =>
    simp only [hm1] at hres
    obtain ⟨hq, hh2⟩ := matchLit_eq_some _ _ _ _ hm1
    injection hres with hres
    exact Or.inl ⟨hq, by rw [← hres, hh2]⟩
  | none =>
  simp only [hm1] at hres
  cases hm3 : matchLit "books/".toList Handler.bookList (stripSlash p) with
  | some hh =>
    simp only [hm3] at hres
    obtain ⟨hq, hh2⟩ := matchLit_eq_some _ _ _ _ hm3
    injection hres with hres
    exact Or.inr (Or.inl ⟨hq, by rw [← hres, hh2]⟩)
  | none =>
  simp only [hm3] at hres
  cases hm4 : matchDetail "book/".toList Handler.bookDetail (stripSlash p)
    with
  | some hh =>
    simp only [hm4] at hres
    obtain ⟨ds, hd1, hd2, hd3, hd4⟩ := matchDetail_eq_some _ _ _ _ hm4
    injection hres with hres
    exact Or.inr (Or.inr (Or.inl ⟨ds, hd1, hd2, hd3, by rw [← hres, hd4]⟩))
  | none =>
  simp only [hm4] at hres
  cases hm5 : matchLit "author/".toList Handler.authorList (stripSlash p)
    with
  | some hh =>
    simp only [hm5] at hres
    obtain ⟨hq, hh2⟩ := matchLit_eq_some _ _ _ _ hm5
    injection hres with hres
    exact Or.inr (Or.inr (Or.inr (Or.inl ⟨hq, by rw [← hres, hh2]⟩)))
  | none =>
  simp only [hm5] at hres
  cases hm6 : matchDetail "author/".toList Handler.authorDetail
      (stripSlash p) with
  | some hh =>
    simp only [hm6] at hres
    obtain ⟨ds, hd1, hd2, hd3, hd4⟩ := matchDetail_eq_some _ _ _ _ hm6
    injection hres with hres
    exact Or.inr (Or.inr (Or.inr (Or.inr (Or.inl
      ⟨ds, hd1, hd2, hd3, by rw [← hres, hd4]⟩))))
  | none =>
  simp only [hm6] at hres
  cases hm7 : matchLit "mybooks/".toList Handler.myBorrowed (stripSlash p)
    with
  | some hh =>
    simp only [hm7] at hres
    obtain ⟨hq, hh2⟩ := matchLit_eq_some _ _ _ _ hm7
    injection hres with hres
    exact Or.inr (Or.inr (Or.inr (Or.inr (Or.inr
      ⟨hq, by rw [← hres, hh2]⟩))))
  | none =>
  simp only [hm7] at hres
  exact Option.noConfusion hres

/-- Witness for C8: the completeness direction of the routing theorem
applied at the concrete path `/books/` and handler `bookList`. -/
theorem routing_spec_witness :
    (stripSlash "/books/".toList = [] ∧
      Handler.bookList = Handler.index) ∨
    (stripSlash "/books/".toList = "books/".toList ∧
      Handler.bookList = Handler.bookList) ∨
    (∃ ds, ds ≠ [] ∧ ds.all Char.isDigit = true ∧
      stripSlash "/books/".toList = "book/".toList ++ ds ∧
      Handler.bookList = Handler.bookDetail (digitsVal ds)) ∨
    (stripSlash "/books/".toList = "author/".toList ∧
      Handler.bookList = Handler.authorList) ∨
    (∃ ds, ds ≠ [] ∧ ds.all Char.isDigit = true ∧
      stripSlash "/books/".toList = "author/".toList ++ ds ∧
      Handler.bookList = Handler.authorDetail (digitsVal ds)) ∨
    (stripSlash "/books/".toList = "mybooks/".toList ∧
      Handler.bookList = Handler.myBorrowed) :=
  routing_spec.2.2.2.2.2.2.2.2.2 "/books/".toList Handler.bookList rfl

end LocalLibrary
